import Mathlib

/-!
Shallow embedding of the ChatAstro backend (server.js and the PaymentService
module) in Lean 4, together with theorems settling the frozen claims about
its specification.

Strings from the JavaScript source are modelled as `List Char`; the JS
`Map`s holding users, sessions, usage states, the astro-data cache, orders
and payments are modelled as association lists with first-match lookup and
replace-on-insert.  External collaborators (the Claude generation call, the
astrology data fetch, the Razorpay HMAC) are parameters of the embedded
operations: an `Option` result models success/thrown-error, and the HMAC is
an explicit function argument.
-/

set_option maxRecDepth 4000

/-! ## Association-list stores (model of the JS `Map`s) -/

def lookupA {α : Type} : List (String × α) → String → Option α
  | [], _ => none
  | (k, v) :: t, q => if k = q then some v else lookupA t q

def insertA {α : Type} (m : List (String × α)) (k : String) (v : α) :
    List (String × α) :=
  (k, v) :: m.filter (fun p => !(p.1 == k))

theorem lookupA_filterOut {α : Type} (m : List (String × α)) (k q : String)
    (h : ¬k = q) :
    lookupA (m.filter (fun p => !(p.1 == k))) q = lookupA m q := by
  induction m with
  | nil => rfl
  | cons p t ih =>
    cases p with
    | mk pk pv =>
      by_cases hpk : pk = k
      · simp [List.filter_cons, hpk, lookupA, ih, h]
      · simp [List.filter_cons, hpk, lookupA]
        by_cases hq : pk = q
        · simp [hq]
        · simp [hq, ih]

theorem lookupA_insertA {α : Type} (m : List (String × α)) (k : String) (v : α)
    (q : String) :
    lookupA (insertA m k v) q = if k = q then some v else lookupA m q := by
  unfold insertA
  by_cases h : k = q
  · simp [lookupA, h]
  · simp [lookupA, h, lookupA_filterOut m k q h]

theorem insertA_insertA {α : Type} (m : List (String × α)) (k : String)
    (v w : α) : insertA (insertA m k v) k w = insertA m k w := by
  unfold insertA
  simp [List.filter_filter]

/-! ## Character/string helpers used by the classifier -/

def toLowerCL (s : List Char) : List Char := s.map Char.toLower

def isPrefixCL : List Char → List Char → Bool
  | [], _ => true
  | _ :: _, [] => false
  | a :: as, b :: bs => a == b && isPrefixCL as bs

/-- Model of the JS `String.prototype.includes` substring test. -/
def containsSub (needle : List Char) : List Char → Bool
  | [] => needle.isEmpty
  | c :: rest => isPrefixCL needle (c :: rest) || containsSub needle rest

/-- Regex word characters, as in the JS `\w` class: `[A-Za-z0-9_]`. -/
def isWordChar (c : Char) : Bool :=
  (decide (97 ≤ c.toNat) && decide (c.toNat ≤ 122)) ||
  (decide (65 ≤ c.toNat) && decide (c.toNat ≤ 90)) ||
  (decide (48 ≤ c.toNat) && decide (c.toNat ≤ 57)) || c == '_'

def boundaryBefore : Option Char → Bool
  | none => true
  | some c => !isWordChar c

def boundaryAfter : List Char → Bool
  | [] => true
  | c :: _ => !isWordChar c

/-- Auxiliary scan for the JS regex test `new RegExp('\\b' + kw + '\\b', 'i')`:
looks for an occurrence of `kw` with word boundaries on both sides,
remembering the previous character. -/
def wwAux (kw : List Char) (prev : Option Char) : List Char → Bool
  | [] => isPrefixCL kw [] && boundaryBefore prev
  | c :: rest =>
    (isPrefixCL kw (c :: rest) && boundaryBefore prev &&
      boundaryAfter ((c :: rest).drop kw.length))
    || wwAux kw (some c) rest

/-- Whole-word (boundary-aware) match of a keyword in the lowercased query. -/
def wholeWordMatch (kw text : List Char) : Bool := wwAux kw none text

/-- Model of `query.split(' ').length`: one more than the number of spaces. -/
def tokenCount (q : List Char) : Nat := q.count ' ' + 1

def trimCL (s : List Char) : List Char :=
  ((s.dropWhile Char.isWhitespace).reverse.dropWhile Char.isWhitespace).reverse

/-! ## Intent classifier (`classifyUserQuery`, server.js lines 338-428) -/

structure Classification where
  intent : String
  confidence : ℚ
  apis : List String
  isComplex : Bool
  isGeneralOverview : Bool
deriving DecidableEq, Repr

def standardApis : List String := ["planetary-positions", "basic-astro-details"]

def marriageKeywords : List (List Char) :=
  ["marry", "marriage", "wedding", "spouse", "partner", "husband", "wife",
   "relationship", "shaadi", "vivah"].map String.data

def careerKeywords : List (List Char) :=
  ["career", "job", "work", "profession", "business", "success", "promotion",
   "office", "naukri"].map String.data

def moneyKeywords : List (List Char) :=
  ["money", "wealth", "finance", "income", "salary", "profit", "rich",
   "financial", "dhan", "paisa"].map String.data

def healthKeywords : List (List Char) :=
  ["health", "disease", "illness", "fitness", "medical", "body", "pain",
   "healing", "swasthya"].map String.data

def loveKeywords : List (List Char) :=
  ["love", "romance", "dating", "boyfriend", "girlfriend", "crush",
   "attraction", "pyaar"].map String.data

def familyKeywords : List (List Char) :=
  ["family", "father", "mother", "brother", "sister", "children", "kids",
   "parents", "parivar"].map String.data

def generalKeywords : List (List Char) :=
  ["life", "future", "destiny", "general", "overall", "horoscope", "kundli",
   "jyotish"].map String.data

/-- The fixed intent table, in the object-literal order of the source. -/
def intentTable : List (String × List (List Char)) :=
  [("marriage", marriageKeywords), ("career", careerKeywords),
   ("money", moneyKeywords), ("health", healthKeywords),
   ("love", loveKeywords), ("family", familyKeywords),
   ("general", generalKeywords)]

/-- Accumulator of the per-intent keyword loop: hit count and `totalScore`. -/
structure KwScore where
  hits : Nat
  total : Nat
deriving DecidableEq, Repr

/-- The keyword loop of `classifyUserQuery`: a substring hit counts 1,
or 2 when the keyword also matches with word boundaries. -/
def scoreKeywords (ql : List Char) (kws : List (List Char)) : KwScore :=
  kws.foldl
    (fun acc kw =>
      if containsSub kw ql then
        { hits := acc.hits + 1,
          total := acc.total + (if wholeWordMatch kw ql then 2 else 1) }
      else acc)
    ⟨0, 0⟩

/-- Per-intent confidence: `totalScore / keywords.length` when any hit, else 0. -/
def intentConfidence (ql : List Char) (kws : List (List Char)) : ℚ :=
  let s := scoreKeywords ql kws
  if 0 < s.hits then mkRat s.total kws.length else 0

/-- One step of the best-intent selection loop: strict improvement only. -/
def selStep (best p : String × ℚ) : String × ℚ :=
  if best.2 < p.2 then p else best

/-- The best-intent selection loop, starting from `('general', 0)`. -/
def selectBest (l : List (String × ℚ)) : String × ℚ :=
  l.foldl selStep ("general", 0)

/-- The general-overview special case guard of `classifyUserQuery`. -/
def specialOverview (ql : List Char) : Bool :=
  containsSub ("general".data) ql &&
    (containsSub ("overview".data) ql || containsSub ("reading".data) ql)

/-- Embedding of `classifyUserQuery` (server.js lines 338-428). -/
def classifyUserQuery (query : List Char) : Classification :=
  let ql := toLowerCL query
  if specialOverview ql then
    { intent := "general_overview", confidence := 1, apis := standardApis,
      isComplex := false, isGeneralOverview := true }
  else
    let scored := intentTable.map (fun p => (p.1, intentConfidence ql p.2))
    let best := selectBest scored
    { intent := best.1, confidence := best.2, apis := standardApis,
      isComplex := decide (10 < tokenCount query),
      isGeneralOverview := false }

/-! ## Session text helpers (split('\n'), join('\n'), slice(-n)) -/

/-- Model of the JS `s.split('\n')`. -/
def splitNl : List Char → List (List Char)
  | [] => [[]]
  | c :: rest =>
    if c = '\n' then [] :: splitNl rest
    else
      match splitNl rest with
      | [] => [[c]]
      | l :: ls => (c :: l) :: ls

/-- Model of the JS `lines.join('\n')`. -/
def joinNl : List (List Char) → List Char
  | [] => []
  | [x] => x
  | x :: y :: t => x ++ '\n' :: joinNl (y :: t)

/-- Model of the JS `xs.slice(-n)`: the last `n` elements. -/
def lastN {α : Type} (n : Nat) (l : List α) : List α :=
  (l.reverse.take n).reverse

/-! ## Data model of the conversation engine (server.js) -/

/-- Per-user usage state (the `userStates` map values). -/
structure UserState where
  freeQuestionsUsed : Nat
  isPremium : Bool
  totalQuestions : Nat
  hasReceivedOverview : Bool
  planType : Option String := none
  remainingQuestions : Option Nat := none
  purchaseDate : Option Nat := none
  paymentId : Option String := none
deriving DecidableEq, Repr

/-- The zero default used when a user has no entry in `userStates`
(the processQuery default leaves `hasReceivedOverview` undefined,
which behaves as `false`). -/
def defaultUserState : UserState :=
  { freeQuestionsUsed := 0, isPremium := false, totalQuestions := 0,
    hasReceivedOverview := false }

structure MessageEntry where
  user : List Char
  bot : List Char
  timestamp : Nat
  classification : String
  confidence : ℚ
  isGeneralOverview : Bool
deriving DecidableEq, Repr

structure Session where
  messages : List MessageEntry
  context : List Char
  startTime : Nat
  queryCount : Nat
  lastActivity : Option Nat := none
deriving DecidableEq, Repr

def freshSession (now : Nat) : Session :=
  { messages := [], context := [], startTime := now, queryCount := 0 }

/-- The astrology-data payload, an opaque JS object modelled as key/value
pairs; the degraded entry carries the empty object. -/
abbrev Payload : Type := List (String × String)

structure CacheEntry where
  data : Payload
  timestamp : Nat
  error : Bool := false
  fallback : Bool := false
deriving DecidableEq

/-- The degraded entry synthesized when a fetch fails with no prior entry. -/
def degradedEntry (now : Nat) : CacheEntry :=
  { data := [], timestamp := now, error := true, fallback := true }

/-! ## Data model of the payment subsystem (PaymentService module) -/

structure Plan where
  questions : Nat
  price : Nat
  name : String
deriving DecidableEq, Repr

/-- Payment-failure detail as supplied by the gateway; `description` is
optional inside the object, and the whole object itself may be absent
(JS `undefined`/`null`), which is modelled at use sites by `Option ErrInfo`. -/
structure ErrInfo where
  description : Option String
deriving DecidableEq, Repr

/-- A local order record (the `orders` map values of PaymentService). -/
structure PayOrder where
  userId : String
  planType : String
  plan : Plan
  amount : Nat
  currency : String
  status : String
  paymentId : Option String := none
  errorData : Option ErrInfo := none
  failedAt : Option Nat := none
deriving DecidableEq, Repr

/-- A payment record created on successful verification. -/
structure PaymentRec where
  id : String
  orderId : String
  amount : Nat
  currency : String
  status : String
  userId : String
  planType : String
  plan : Plan
  createdAt : Nat
  verifiedAt : Nat
deriving DecidableEq, Repr

/-- The three fields of the verification request body. -/
structure PaymentData where
  orderId : String
  paymentId : String
  signature : String
deriving DecidableEq, Repr

/-- Whole-process state: the four engine maps plus the two payment maps. -/
structure ServerState where
  users : List String
  userStates : List (String × UserState)
  sessions : List (String × Session)
  astroCache : List (String × CacheEntry)
  orders : List (String × PayOrder)
  payments : List (String × PaymentRec)
deriving DecidableEq

/-! ## Data cache step (processQuery lines 459-488) -/

/-- Cache key: `userId + '_' + classification.apis.join('_')`. -/
def cacheKeyOf (userId : String) (apis : List String) : String :=
  userId ++ "_" ++ String.intercalate "_" apis

/-- The caching block of `processQuery`: look up the entry, refresh when
absent or older than one hour (3600000 ms), keep the stale entry on a
failed refresh, and synthesize a degraded entry when there was none.
`fetchRes` is the outcome of the `fetchAstrologyData` collaborator
(`none` models a thrown error).  Returns the new cache map, the entry
used for this turn, and whether a fetch was attempted. -/
def cacheStep (fetchRes : Option Payload) (now : Nat)
    (cache : List (String × CacheEntry)) (key : String) :
    List (String × CacheEntry) × CacheEntry × Bool :=
  match lookupA cache key with
  | some e =>
    if 3600000 < now - e.timestamp then
      match fetchRes with
      | some payload =>
        let e2 : CacheEntry := { data := payload, timestamp := now }
        (insertA cache key e2, e2, true)
      | none => (cache, e, true)
    else (cache, e, false)
  | none =>
    match fetchRes with
    | some payload =>
      let e2 : CacheEntry := { data := payload, timestamp := now }
      (insertA cache key e2, e2, true)
    | none => (cache, degradedEntry now, true)

/-! ## processQuery (server.js lines 431-558) -/

inductive EngineError where
  | userNotFound
  | generationFailed
deriving DecidableEq, Repr

instance {e a : Type} [DecidableEq e] [DecidableEq a] :
    DecidableEq (Except e a) := fun x y =>
  match x, y with
  | .ok v, .ok w =>
    if h : v = w then isTrue (by rw [h]) else isFalse (by simp [h])
  | .error v, .error w =>
    if h : v = w then isTrue (by rw [h]) else isFalse (by simp [h])
  | .ok _, .error _ => isFalse (by simp)
  | .error _, .ok _ => isFalse (by simp)

structure QueryOutcome where
  st : ServerState
  res : Except EngineError (List Char)
  genCalled : Bool
  fetchAttempted : Bool
  served : Option CacheEntry
deriving DecidableEq

/-- The text appended to `session.context` per exchange:
`User: ${message}\nBot: ${response}\n`. -/
def exchangeText (msg resp : List Char) : List Char :=
  "User: ".data ++ msg ++ '\n' :: ("Bot: ".data ++ resp) ++ ['\n']

def mkEntry (msg resp : List Char) (now : Nat) (cls : Classification) :
    MessageEntry :=
  { user := msg, bot := resp, timestamp := now, classification := cls.intent,
    confidence := cls.confidence, isGeneralOverview := cls.isGeneralOverview }

/-- Appending one exchange to a session and applying the retention rule:
keep only the last 10 messages and, when trimming, only the last 20
context lines (processQuery lines 536-545). -/
def appendExchange (sess : Session) (e : MessageEntry) : Session :=
  let s2 : Session :=
    { sess with messages := sess.messages ++ [e],
                context := sess.context ++ exchangeText e.user e.bot,
                lastActivity := some e.timestamp }
  if 10 < s2.messages.length then
    { s2 with messages := lastN 10 s2.messages,
              context := joinNl (lastN 20 (splitNl s2.context)) }
  else s2

/-- Embedding of `processQuery` (server.js lines 431-558).

JS aliasing is modelled explicitly: `session.queryCount++` and
`userState.totalQuestions++` mutate objects obtained from the shared maps,
so when the key was present the increment is immediately visible in the
map (even if the later generation call throws); when the key was absent
the fresh object only reaches the map through the final `set` calls.
The prompt-context string built for Claude is not modelled: no claim and
no state depends on it (`genRes` is the collaborator outcome).  `served`
observes the `astroData` value in scope at the generation call. -/
def processQuery (fetchRes : Option Payload) (genRes : Option (List Char))
    (now : Nat) (st : ServerState) (u sid : String) (msg : List Char) :
    QueryOutcome :=
  if u ∈ st.users then
    let usOpt := lookupA st.userStates u
    let us := usOpt.getD defaultUserState
    let sessOpt := lookupA st.sessions sid
    let sess := sessOpt.getD (freshSession now)
    let us1 : UserState := { us with totalQuestions := us.totalQuestions + 1 }
    let sess1 : Session := { sess with queryCount := sess.queryCount + 1 }
    let ust1 := if usOpt.isSome then insertA st.userStates u us1
                else st.userStates
    let sst1 := if sessOpt.isSome then insertA st.sessions sid sess1
                else st.sessions
    let cls := classifyUserQuery msg
    let key := cacheKeyOf u cls.apis
    let cres := cacheStep fetchRes now st.astroCache key
    match genRes with
    | none =>
      { st := { st with userStates := ust1, sessions := sst1,
                        astroCache := cres.1 },
        res := .error .generationFailed, genCalled := true,
        fetchAttempted := cres.2.2, served := some cres.2.1 }
    | some resp =>
      let sess2 := appendExchange sess1 (mkEntry msg resp now cls)
      { st := { st with userStates := insertA ust1 u us1,
                        sessions := insertA sst1 sid sess2,
                        astroCache := cres.1 },
        res := .ok resp, genCalled := true,
        fetchAttempted := cres.2.2, served := some cres.2.1 }
  else
    { st := st, res := .error .userNotFound, genCalled := false,
      fetchAttempted := false, served := none }

/-! ## POST /api/chat/message handler (server.js lines 1351-1451) -/

inductive ChatRes where
  | badRequest
  | quotaExceeded (freeQuestionsUsed : Nat) (isPremium : Bool)
  | ok (response : List Char)
  | serverError (e : EngineError)
deriving DecidableEq, Repr

structure ChatOutcome where
  st : ServerState
  res : ChatRes
  genCalled : Bool
  freeOverviewGranted : Bool
deriving DecidableEq

def finishChat (q : QueryOutcome) (ov : Bool) : ChatOutcome :=
  match q.res with
  | .ok r => { st := q.st, res := .ok r, genCalled := q.genCalled,
               freeOverviewGranted := ov }
  | .error e => { st := q.st, res := .serverError e,
                  genCalled := q.genCalled, freeOverviewGranted := ov }

/-- Embedding of the chat-message route handler: validations, the
first-free-overview grant, the 10-free-question gate, the pre-generation
quota increment, then `processQuery`. -/
def handleChatMessage (fetchRes : Option Payload) (genRes : Option (List Char))
    (now : Nat) (st : ServerState) (u sid : String) (msg : List Char) :
    ChatOutcome :=
  if (trimCL msg).length = 0 then
    { st := st, res := .badRequest, genCalled := false,
      freeOverviewGranted := false }
  else if 1000 < msg.length then
    { st := st, res := .badRequest, genCalled := false,
      freeOverviewGranted := false }
  else
    let us := (lookupA st.userStates u).getD defaultUserState
    let cls := classifyUserQuery (trimCL msg)
    if cls.isGeneralOverview && !us.hasReceivedOverview then
      let st1 := { st with userStates :=
        (insertA st.userStates u { us with hasReceivedOverview := true }) }
      finishChat (processQuery fetchRes genRes now st1 u sid (trimCL msg)) true
    else if !us.isPremium && 10 ≤ us.freeQuestionsUsed then
      { st := st, res := .quotaExceeded us.freeQuestionsUsed us.isPremium,
        genCalled := false, freeOverviewGranted := false }
    else
      let st1 := if us.isPremium then st
        else { st with userStates :=
          (insertA st.userStates u
            { us with freeQuestionsUsed := us.freeQuestionsUsed + 1 }) }
      finishChat (processQuery fetchRes genRes now st1 u sid (trimCL msg)) false

/-! ## PaymentService.verifyPayment and the verify route -/

inductive PayError where
  | missingData
  | orderNotFound
  | signatureMismatch
deriving DecidableEq, Repr

/-- Embedding of `PaymentService.verifyPayment`.  The gateway HMAC-SHA256
(hex-encoded) is the function parameter `hm`, applied to the key secret
and the message `orderId|paymentId`; the code compares it to the supplied
signature by exact string equality.  A `.error` value models a throw. -/
def verifyPayment (hm : String → String → String) (secret : String)
    (now : Nat) (st : ServerState) (pd : PaymentData) :
    ServerState × Except PayError (PaymentRec × PayOrder) :=
  if pd.orderId = "" ∨ pd.paymentId = "" ∨ pd.signature = "" then
    (st, .error .missingData)
  else
    match lookupA st.orders pd.orderId with
    | none => (st, .error .orderNotFound)
    | some ord =>
      if hm secret (pd.orderId ++ "|" ++ pd.paymentId) = pd.signature then
        let pay : PaymentRec :=
          { id := pd.paymentId, orderId := pd.orderId, amount := ord.amount,
            currency := ord.currency, status := "captured",
            userId := ord.userId, planType := ord.planType, plan := ord.plan,
            createdAt := now, verifiedAt := now }
        let ord2 : PayOrder :=
          { ord with status := "paid", paymentId := some pd.paymentId }
        ({ st with payments := insertA st.payments pd.paymentId pay,
                   orders := insertA st.orders pd.orderId ord2 },
         .ok (pay, ord2))
      else (st, .error .signatureMismatch)

/-- Embedding of the POST /api/payment/verify route (server.js lines
1042-1101): on successful verification the user state is flipped to
premium with the plan allowance; on a thrown verification error the
route answers 500 and no user state changes. -/
def verifyRoute (hm : String → String → String) (secret : String) (now : Nat)
    (st : ServerState) (userId : String) (pd : PaymentData) :
    ServerState × Bool :=
  match verifyPayment hm secret now st pd with
  | (st1, .ok payord) =>
    let us := (lookupA st1.userStates userId).getD defaultUserState
    let us2 : UserState :=
      { us with isPremium := true, planType := some payord.2.planType,
                totalQuestions := payord.2.plan.questions,
                remainingQuestions := some payord.2.plan.questions,
                purchaseDate := some now, paymentId := some payord.1.id }
    ({ st1 with userStates := insertA st1.userStates userId us2 }, true)
  | (st1, .error _) => (st1, false)

/-- Embedding of `PaymentService.handlePaymentFailure`.  When the order is
known it is marked failed (this `set` happens before the log line).  The
following `console.log` reads `errorData.description`, which throws a
TypeError when `errorData` is `undefined`/`null` (modelled by `none`);
the catch block rethrows it. -/
def handlePaymentFailure (now : Nat) (st : ServerState) (orderId : String)
    (errorData : Option ErrInfo) : ServerState × Except Unit Unit :=
  let st1 :=
    match lookupA st.orders orderId with
    | some o =>
      { st with orders := (insertA st.orders orderId
          { o with status := "failed", errorData := errorData,
                   failedAt := some now }) }
    | none => st
  match errorData with
  | none => (st1, .error ())
  | some _ => (st1, .ok ())

/-! ## Operation sequences for the usage-ledger invariant (C2) -/

/-- One inbound operation: a chat message or a payment verification, each
carrying the outcomes of the external collaborators for that call. -/
inductive Op where
  | chat (userId sessionId : String) (message : List Char)
      (fetchRes : Option Payload) (genRes : Option (List Char)) (now : Nat)
  | verify (userId : String) (now : Nat) (pd : PaymentData)

def stepOp (hm : String → String → String) (secret : String)
    (st : ServerState) : Op → ServerState
  | .chat u sid msg f g now => (handleChatMessage f g now st u sid msg).st
  | .verify u now pd => (verifyRoute hm secret now st u pd).1

def runOps (hm : String → String → String) (secret : String)
    (st : ServerState) (ops : List Op) : ServerState :=
  ops.foldl (stepOp hm secret) st

/-! ## Claim C4: the general-overview special case of the classifier -/

/-- C4: for every input text containing both a "general" term and an
"overview" or "reading" term (as substrings of the lowercased text, as the
code tests them), `classifyUserQuery` returns intent `general_overview`
with confidence exactly 1.0 and `isGeneralOverview` true, regardless of
any other keyword matches. -/
theorem C4_general_overview_shortcircuit (q : List Char)
    (hg : containsSub ("general".data) (toLowerCL q) = true)
    (hor : containsSub ("overview".data) (toLowerCL q) = true ∨
        containsSub ("reading".data) (toLowerCL q) = true) :
    (classifyUserQuery q).intent = "general_overview" ∧
    (classifyUserQuery q).confidence = 1 ∧
    (classifyUserQuery q).isGeneralOverview = true := by
  unfold classifyUserQuery specialOverview
  rcases hor with h | h <;> simp [hg, h]

theorem C4_general_overview_shortcircuit_witness :
    (containsSub ("general".data)
        (toLowerCL ("my Career and a GENERAL reading".data)) = true ∧
      containsSub ("reading".data)
        (toLowerCL ("my Career and a GENERAL reading".data)) = true) ∧
    ((classifyUserQuery ("my Career and a GENERAL reading".data)).intent =
        "general_overview" ∧
      (classifyUserQuery ("my Career and a GENERAL reading".data)).confidence
        = 1 ∧
      (classifyUserQuery ("my Career and a GENERAL reading".data)).isGeneralOverview = true) :=
  ⟨⟨by decide, by decide⟩,
    C4_general_overview_shortcircuit _ (by decide) (Or.inr (by decide))⟩

/-! ## Claim C1: the 11th free-tier question is rejected -/

/-- C1: for a non-premium user whose `freeQuestionsUsed` has reached 10, a
valid chat message that is not a first-time general-overview request is
rejected with the payment-required signal: the whole server state is left
unchanged (so `freeQuestionsUsed` stays at 10 and no other counter moves)
and no generation call is made. -/
theorem C1_quota_rejection (f : Option Payload) (g : Option (List Char))
    (now : Nat) (st : ServerState) (u sid : String) (msg : List Char)
    (us : UserState)
    (hlk : lookupA st.userStates u = some us)
    (hprem : us.isPremium = false)
    (hfq : us.freeQuestionsUsed = 10)
    (hov : (classifyUserQuery (trimCL msg)).isGeneralOverview = false ∨
        us.hasReceivedOverview = true)
    (hne : (trimCL msg).length ≠ 0)
    (hlen : msg.length ≤ 1000) :
    handleChatMessage f g now st u sid msg =
      { st := st, res := .quotaExceeded 10 false, genCalled := false,
        freeOverviewGranted := false } := by
  unfold handleChatMessage
  rw [if_neg hne, if_neg (by omega)]
  rcases hov with h | h <;> simp [hlk, h, hprem, hfq]

theorem C1_quota_rejection_witness :
    (lookupA
        [("u1", { freeQuestionsUsed := 10, isPremium := false,
                  totalQuestions := 11,
                  hasReceivedOverview := true : UserState })] "u1" =
      some { freeQuestionsUsed := 10, isPremium := false,
             totalQuestions := 11, hasReceivedOverview := true } ∧
      (trimCL ("will i get a job".data)).length ≠ 0) ∧
    handleChatMessage (some []) (some ("ok".data)) 5
        { users := ["u1"],
          userStates := [("u1", { freeQuestionsUsed := 10, isPremium := false,
                                  totalQuestions := 11,
                                  hasReceivedOverview := true })],
          sessions := [], astroCache := [], orders := [], payments := [] }
        "u1" "s1" ("will i get a job".data) =
      { st := { users := ["u1"],
                userStates := [("u1", { freeQuestionsUsed := 10,
                                        isPremium := false,
                                        totalQuestions := 11,
                                        hasReceivedOverview := true })],
                sessions := [], astroCache := [], orders := [],
                payments := [] },
        res := .quotaExceeded 10 false, genCalled := false,
        freeOverviewGranted := false } :=
  ⟨⟨by decide, by decide⟩,
    C1_quota_rejection (some []) (some ("ok".data)) 5 _ "u1" "s1" _
      { freeQuestionsUsed := 10, isPremium := false, totalQuestions := 11,
        hasReceivedOverview := true }
      (by decide) (by decide) (by decide) (Or.inr (by decide)) (by decide)
      (by decide)⟩

/-! ## Helper lemmas: how processQuery touches the usage ledger -/

/-- Relation describing the only usage-state changes `processQuery` makes:
it may bump `totalQuestions` or create a default entry, but it never
touches `freeQuestionsUsed`, `isPremium` or `hasReceivedOverview`. -/
def usRel : Option UserState → Option UserState → Prop
  | none, none => True
  | none, some b => b.freeQuestionsUsed = 0 ∧ b.isPremium = false ∧
      b.hasReceivedOverview = false
  | some _, none => False
  | some a, some b => b.freeQuestionsUsed = a.freeQuestionsUsed ∧
      b.isPremium = a.isPremium ∧
      b.hasReceivedOverview = a.hasReceivedOverview

theorem usRel_refl (x : Option UserState) : usRel x x := by
  cases x <;> simp [usRel]

theorem processQuery_usRel (f : Option Payload) (g : Option (List Char))
    (now : Nat) (st : ServerState) (u sid : String) (msg : List Char)
    (w : String) :
    usRel (lookupA st.userStates w)
      (lookupA (processQuery f g now st u sid msg).st.userStates w) := by
  unfold processQuery
  by_cases hu : u ∈ st.users
  · simp only [if_pos hu]
    cases g with
    | none =>
      by_cases hw : u = w
      · subst hw
        cases hus : lookupA st.userStates u with
        | none => simp [hus, usRel_refl]
        | some us => simp [hus, lookupA_insertA, usRel]
      · cases hus : lookupA st.userStates u with
        | none => simp [hus, usRel_refl]
        | some us => simp [hus, lookupA_insertA, hw, usRel_refl]
    | some resp =>
      by_cases hw : u = w
      · subst hw
        cases hus : lookupA st.userStates u with
        | none => simp [hus, lookupA_insertA, usRel, defaultUserState]
        | some us => simp [hus, lookupA_insertA, usRel]
      · cases hus : lookupA st.userStates u with
        | none => simp [hus, lookupA_insertA, hw, usRel_refl]
        | some us => simp [hus, lookupA_insertA, hw, usRel_refl]
  · simp [if_neg hu, usRel_refl]

/-- On a generation failure, `processQuery` reports the failure and leaves
the stored sessions unchanged except for the in-place `queryCount`
increment on an already-existing session object. -/
theorem processQuery_fail_parts (f : Option Payload) (now : Nat)
    (st : ServerState) (u sid : String) (msg : List Char)
    (hu : u ∈ st.users) :
    (processQuery f none now st u sid msg).res =
        .error .generationFailed ∧
    (processQuery f none now st u sid msg).st.sessions =
      (match lookupA st.sessions sid with
        | some sess => insertA st.sessions sid
            { sess with queryCount := sess.queryCount + 1 }
        | none => st.sessions) ∧
    (processQuery f none now st u sid msg).st.userStates =
      (match lookupA st.userStates u with
        | some us => insertA st.userStates u
            { us with totalQuestions := us.totalQuestions + 1 }
        | none => st.userStates) := by
  unfold processQuery
  simp only [if_pos hu]
  cases hus : lookupA st.userStates u <;>
    cases hsess : lookupA st.sessions sid <;> simp [hus, hsess]

/-! ## Claim C3: what a generation failure leaves behind -/

def exUser3 : UserState :=
  { freeQuestionsUsed := 3, isPremium := false, totalQuestions := 7,
    hasReceivedOverview := true }

def exSess3 : Session :=
  { messages := [], context := [], startTime := 0, queryCount := 5 }

def exSt3 : ServerState :=
  { users := ["u1"], userStates := [("u1", exUser3)],
    sessions := [("s1", exSess3)], astroCache := [], orders := [],
    payments := [] }

/-- C3 counterexample: a non-premium user at 3 used free questions sends a
chargeable message and the generation collaborator fails.  The failure
propagates, but `freeQuestionsUsed` has moved 3 → 4, `totalQuestions`
7 → 8 and the session's `queryCount` 5 → 6 — refuting the claim that the
Usage State and Session are left unchanged on a generation failure. -/
theorem C3_counterexample :
    (handleChatMessage (some []) none 1000 exSt3 "u1" "s1"
        ("career advice".data)).res = .serverError .generationFailed ∧
    (lookupA exSt3.userStates "u1").map UserState.freeQuestionsUsed =
      some 3 ∧
    (lookupA (handleChatMessage (some []) none 1000 exSt3 "u1" "s1"
        ("career advice".data)).st.userStates "u1").map
        UserState.freeQuestionsUsed = some 4 ∧
    (lookupA (handleChatMessage (some []) none 1000 exSt3 "u1" "s1"
        ("career advice".data)).st.userStates "u1").map
        UserState.totalQuestions = some 8 ∧
    (lookupA exSt3.sessions "s1").map Session.queryCount = some 5 ∧
    (lookupA (handleChatMessage (some []) none 1000 exSt3 "u1" "s1"
        ("career advice".data)).st.sessions "s1").map Session.queryCount =
      some 6 := by decide

/-- C3 (amended): when the generation collaborator fails on a chargeable
message from a non-premium user under the limit, the failure propagates
as the generation error, but the usage counters are NOT rolled back:
`freeQuestionsUsed` keeps the increment persisted before the call and
`totalQuestions` the in-place increment; the session keeps its in-place
`queryCount` increment while its message list and context stay unchanged. -/
theorem C3_generation_failure_effects (f : Option Payload) (now : Nat)
    (st : ServerState) (u sid : String) (msg : List Char)
    (us : UserState) (sess : Session)
    (hu : u ∈ st.users)
    (hlk : lookupA st.userStates u = some us)
    (hprem : us.isPremium = false)
    (hfq : us.freeQuestionsUsed < 10)
    (hov : (classifyUserQuery (trimCL msg)).isGeneralOverview = false ∨
        us.hasReceivedOverview = true)
    (hsess : lookupA st.sessions sid = some sess)
    (hne : (trimCL msg).length ≠ 0)
    (hlen : msg.length ≤ 1000) :
    (handleChatMessage f none now st u sid msg).res =
        .serverError .generationFailed ∧
    lookupA (handleChatMessage f none now st u sid msg).st.userStates u =
      some { us with freeQuestionsUsed := us.freeQuestionsUsed + 1,
                     totalQuestions := us.totalQuestions + 1 } ∧
    lookupA (handleChatMessage f none now st u sid msg).st.sessions sid =
      some { sess with queryCount := sess.queryCount + 1 } := by
  have hhandler :
      handleChatMessage f none now st u sid msg =
        finishChat
          (processQuery f none now
            { st with userStates := (insertA st.userStates u
                { us with freeQuestionsUsed := us.freeQuestionsUsed + 1 }) }
            u sid (trimCL msg)) false := by
    unfold handleChatMessage
    rw [if_neg hne, if_neg (by omega)]
    rcases hov with h | h <;> simp [hlk, h, hprem, Nat.not_le.mpr hfq]
  obtain ⟨h1, h2, h3⟩ :=
    processQuery_fail_parts f now
      { st with userStates := (insertA st.userStates u
          { us with freeQuestionsUsed := us.freeQuestionsUsed + 1 }) }
      u sid (trimCL msg) hu
  rw [hhandler]
  unfold finishChat
  rw [h1]
  refine ⟨rfl, ?_, ?_⟩
  · simp only [h3]
    simp [lookupA_insertA]
  · simp only [h2]
    simp [hsess, lookupA_insertA]

theorem C3_generation_failure_effects_witness :
    ("u1" ∈ exSt3.users ∧ lookupA exSt3.userStates "u1" = some exUser3 ∧
      exUser3.isPremium = false ∧ exUser3.freeQuestionsUsed < 10 ∧
      lookupA exSt3.sessions "s1" = some exSess3) ∧
    ((handleChatMessage (some []) none 1000 exSt3 "u1" "s1"
        ("career advice".data)).res = .serverError .generationFailed ∧
      lookupA (handleChatMessage (some []) none 1000 exSt3 "u1" "s1"
          ("career advice".data)).st.userStates "u1" =
        some { exUser3 with
                 freeQuestionsUsed := exUser3.freeQuestionsUsed + 1,
                 totalQuestions := exUser3.totalQuestions + 1 } ∧
      lookupA (handleChatMessage (some []) none 1000 exSt3 "u1" "s1"
          ("career advice".data)).st.sessions "s1" =
        some { exSess3 with queryCount := exSess3.queryCount + 1 }) :=
  ⟨⟨by decide, by decide, by decide, by decide, by decide⟩,
    C3_generation_failure_effects (some []) 1000 exSt3 "u1" "s1"
      ("career advice".data) exUser3 exSess3 (by decide) (by decide)
      (by decide) (by decide) (Or.inr (by decide)) (by decide) (by decide)
      (by decide)⟩


/-! ## Helper lemmas about finishChat -/

theorem finishChat_st (q : QueryOutcome) (ov : Bool) :
    (finishChat q ov).st = q.st := by
  unfold finishChat
  cases hq : q.res <;> simp

theorem finishChat_ov (q : QueryOutcome) (ov : Bool) :
    (finishChat q ov).freeOverviewGranted = ov := by
  unfold finishChat
  cases hq : q.res <;> simp

/-! ## Claim C10: the free overview is consumed even when generation fails -/

/-- C10: on a user's first qualifying general-overview request the handler
sets `hasReceivedOverview` and persists it before the generation call, so
when the generation then fails the one free overview is permanently
consumed: any later general-overview request is treated as a chargeable
question (it increments `freeQuestionsUsed` when under the limit, or is
rejected with the payment-required signal at the limit). -/
theorem C10_overview_consumed_on_failed_generation (f : Option Payload)
    (now : Nat) (st : ServerState) (u sid : String) (m1 : List Char)
    (us : UserState)
    (hu : u ∈ st.users)
    (hlk : lookupA st.userStates u = some us)
    (hov0 : us.hasReceivedOverview = false)
    (hprem : us.isPremium = false)
    (hcls1 : (classifyUserQuery (trimCL m1)).isGeneralOverview = true)
    (hne1 : (trimCL m1).length ≠ 0) (hlen1 : m1.length ≤ 1000) :
    (handleChatMessage f none now st u sid m1).freeOverviewGranted = true ∧
    (handleChatMessage f none now st u sid m1).res =
        .serverError .generationFailed ∧
    (lookupA (handleChatMessage f none now st u sid m1).st.userStates
        u).map UserState.hasReceivedOverview = some true ∧
    (∀ (f2 : Option Payload) (g2 : Option (List Char)) (now2 : Nat)
        (sid2 : String) (m2 : List Char),
      (classifyUserQuery (trimCL m2)).isGeneralOverview = true →
      (trimCL m2).length ≠ 0 → m2.length ≤ 1000 →
      (handleChatMessage f2 g2 now2
          (handleChatMessage f none now st u sid m1).st u sid2
          m2).freeOverviewGranted = false ∧
      (us.freeQuestionsUsed < 10 →
        (lookupA (handleChatMessage f2 g2 now2
            (handleChatMessage f none now st u sid m1).st u sid2
            m2).st.userStates u).map UserState.freeQuestionsUsed =
          some (us.freeQuestionsUsed + 1)) ∧
      (10 ≤ us.freeQuestionsUsed →
        (handleChatMessage f2 g2 now2
            (handleChatMessage f none now st u sid m1).st u sid2 m2).res =
          .quotaExceeded us.freeQuestionsUsed false)) := by
  have hhandler :
      handleChatMessage f none now st u sid m1 =
        finishChat
          (processQuery f none now
            { st with userStates := (insertA st.userStates u
                { us with hasReceivedOverview := true }) }
            u sid (trimCL m1)) true := by
    unfold handleChatMessage
    rw [if_neg hne1, if_neg (by omega)]
    simp [hlk, hcls1, hov0]
  obtain ⟨h1, h2, h3⟩ :=
    processQuery_fail_parts f now
      { st with userStates := (insertA st.userStates u
          { us with hasReceivedOverview := true }) }
      u sid (trimCL m1) hu
  have hres1 : (handleChatMessage f none now st u sid m1).res =
      .serverError .generationFailed := by
    rw [hhandler]
    unfold finishChat
    rw [h1]
  have hov1 : (handleChatMessage f none now st u sid m1).freeOverviewGranted
      = true := by
    rw [hhandler, finishChat_ov]
  have hc :
      lookupA (handleChatMessage f none now st u sid m1).st.userStates u =
        some { us with hasReceivedOverview := true,
                       totalQuestions := us.totalQuestions + 1 } := by
    rw [hhandler, finishChat_st]
    simp only [h3]
    simp [lookupA_insertA]
  refine ⟨hov1, hres1, by rw [hc]; rfl, ?_⟩
  intro f2 g2 now2 sid2 m2 hcls2 hne2 hlen2
  set stA := (handleChatMessage f none now st u sid m1).st with hstA
  by_cases hfq : 10 ≤ us.freeQuestionsUsed
  · have hh2 : handleChatMessage f2 g2 now2 stA u sid2 m2 =
        { st := stA, res := .quotaExceeded us.freeQuestionsUsed false,
          genCalled := false, freeOverviewGranted := false } := by
      unfold handleChatMessage
      rw [if_neg hne2, if_neg (by omega)]
      simp [hc, hcls2, hprem, hfq]
    exact ⟨by rw [hh2], by intro h; omega, by intro h; rw [hh2]⟩
  · have hh2 : handleChatMessage f2 g2 now2 stA u sid2 m2 =
        finishChat
          (processQuery f2 g2 now2
            { stA with userStates := (insertA stA.userStates u
                { us with hasReceivedOverview := true,
                          totalQuestions := us.totalQuestions + 1,
                          freeQuestionsUsed :=
                            us.freeQuestionsUsed + 1 }) }
            u sid2 (trimCL m2)) false := by
      unfold handleChatMessage
      rw [if_neg hne2, if_neg (by omega)]
      simp [hc, hcls2, hprem, hfq]
    refine ⟨by rw [hh2, finishChat_ov], ?_, by intro h; omega⟩
    intro _
    rw [hh2, finishChat_st]
    have hrel :=
      processQuery_usRel f2 g2 now2
        { stA with userStates := (insertA stA.userStates u
            { us with hasReceivedOverview := true,
                      totalQuestions := us.totalQuestions + 1,
                      freeQuestionsUsed := us.freeQuestionsUsed + 1 }) }
        u sid2 (trimCL m2) u
    simp only [lookupA_insertA, if_pos rfl] at hrel
    cases hlk2 :
        lookupA (processQuery f2 g2 now2
          { stA with userStates := (insertA stA.userStates u
              { us with hasReceivedOverview := true,
                        totalQuestions := us.totalQuestions + 1,
                        freeQuestionsUsed := us.freeQuestionsUsed + 1 }) }
          u sid2 (trimCL m2)).st.userStates u with
    | none =>
      rw [hlk2] at hrel
      exact absurd hrel (by simp [usRel])
    | some b =>
      rw [hlk2] at hrel
      obtain ⟨hb, -, -⟩ := hrel
      simp [hb]

def exUserT : UserState :=
  { freeQuestionsUsed := 2, isPremium := false, totalQuestions := 2,
    hasReceivedOverview := false }

def exStT : ServerState :=
  { users := ["u1"], userStates := [("u1", exUserT)], sessions := [],
    astroCache := [], orders := [], payments := [] }

theorem C10_overview_consumed_on_failed_generation_witness :
    ("u1" ∈ exStT.users ∧ lookupA exStT.userStates "u1" = some exUserT ∧
      exUserT.hasReceivedOverview = false ∧ exUserT.isPremium = false ∧
      (classifyUserQuery
        (trimCL ("i want a general overview".data))).isGeneralOverview =
        true) ∧
    ((handleChatMessage (some []) none 7 exStT "u1" "s9"
        ("i want a general overview".data)).freeOverviewGranted = true ∧
      (handleChatMessage (some []) none 7 exStT "u1" "s9"
          ("i want a general overview".data)).res =
        .serverError .generationFailed ∧
      (lookupA (handleChatMessage (some []) none 7 exStT "u1" "s9"
          ("i want a general overview".data)).st.userStates "u1").map
          UserState.hasReceivedOverview = some true ∧
      (∀ (f2 : Option Payload) (g2 : Option (List Char)) (now2 : Nat)
          (sid2 : String) (m2 : List Char),
        (classifyUserQuery (trimCL m2)).isGeneralOverview = true →
        (trimCL m2).length ≠ 0 → m2.length ≤ 1000 →
        (handleChatMessage f2 g2 now2
            (handleChatMessage (some []) none 7 exStT "u1" "s9"
              ("i want a general overview".data)).st "u1" sid2
            m2).freeOverviewGranted = false ∧
        (exUserT.freeQuestionsUsed < 10 →
          (lookupA (handleChatMessage f2 g2 now2
              (handleChatMessage (some []) none 7 exStT "u1" "s9"
                ("i want a general overview".data)).st "u1" sid2
              m2).st.userStates "u1").map UserState.freeQuestionsUsed =
            some (exUserT.freeQuestionsUsed + 1)) ∧
        (10 ≤ exUserT.freeQuestionsUsed →
          (handleChatMessage f2 g2 now2
              (handleChatMessage (some []) none 7 exStT "u1" "s9"
                ("i want a general overview".data)).st "u1" sid2 m2).res =
            .quotaExceeded exUserT.freeQuestionsUsed false))) :=
  ⟨⟨by decide, by decide, by decide, by decide, by decide⟩,
    C10_overview_consumed_on_failed_generation (some []) 7 exStT "u1" "s9"
      ("i want a general overview".data) exUserT (by decide) (by decide)
      (by decide) (by decide) (by decide) (by decide) (by decide)⟩

/-! ## Claim C2: the usage-ledger invariant -/

/-- The free-quota bound: while not premium, at most 10 free questions. -/
def quotaOk : Option UserState → Prop
  | none => True
  | some s => s.isPremium = false → s.freeQuestionsUsed ≤ 10

/-- Monotonicity of the ledger between two observations of one user:
`freeQuestionsUsed` never decreases, entries are never deleted, and
premium is never revoked. -/
def usageMono : Option UserState → Option UserState → Prop
  | none, _ => True
  | some _, none => False
  | some a, some b => a.freeQuestionsUsed ≤ b.freeQuestionsUsed ∧
      (a.isPremium = true → b.isPremium = true)

theorem usageMono_refl (x : Option UserState) : usageMono x x := by
  cases x <;> simp [usageMono]

theorem usageMono_trans {x y z : Option UserState} (h1 : usageMono x y)
    (h2 : usageMono y z) : usageMono x z := by
  cases x with
  | none => simp [usageMono]
  | some a =>
    cases y with
    | none => exact absurd h1 (by simp [usageMono])
    | some b =>
      cases z with
      | none => exact absurd h2 (by simp [usageMono])
      | some c =>
        obtain ⟨hf1, hp1⟩ := h1
        obtain ⟨hf2, hp2⟩ := h2
        exact ⟨le_trans hf1 hf2, fun h => hp2 (hp1 h)⟩

theorem usRel_mono {x y : Option UserState} (h : usRel x y) :
    usageMono x y := by
  cases x with
  | none => simp [usageMono]
  | some a =>
    cases y with
    | none => exact absurd h (by simp [usRel])
    | some b =>
      obtain ⟨hf, hp, -⟩ := h
      exact ⟨le_of_eq hf.symm, fun hh => by rw [hp, hh]⟩

theorem usRel_quota {x y : Option UserState} (h : usRel x y)
    (hq : quotaOk x) : quotaOk y := by
  cases x with
  | none =>
    cases y with
    | none => trivial
    | some b =>
      obtain ⟨hf, -, -⟩ := h
      intro _
      rw [hf]
      omega
  | some a =>
    cases y with
    | none => trivial
    | some b =>
      obtain ⟨hf, hp, -⟩ := h
      intro hb
      rw [hf]
      exact hq (by rw [← hp, hb])

/-- Ledger effect of inserting one value: only the inserted key changes. -/
theorem insert_step_ledger (m : List (String × UserState)) (u : String)
    (v : UserState) (w : String) (hq : quotaOk (lookupA m w))
    (hvw : u = w → quotaOk (some v) ∧ usageMono (lookupA m w) (some v)) :
    quotaOk (lookupA (insertA m u v) w) ∧
    usageMono (lookupA m w) (lookupA (insertA m u v) w) := by
  rw [lookupA_insertA]
  by_cases hw : u = w
  · rw [if_pos hw]
    exact hvw hw
  · rw [if_neg hw]
    exact ⟨hq, usageMono_refl _⟩

theorem verifyPayment_userStates (hm : String → String → String)
    (secret : String) (now : Nat) (st : ServerState) (pd : PaymentData) :
    (verifyPayment hm secret now st pd).1.userStates = st.userStates := by
  unfold verifyPayment
  by_cases h0 : pd.orderId = "" ∨ pd.paymentId = "" ∨ pd.signature = ""
  · rw [if_pos h0]
  · rw [if_neg h0]
    cases ho : lookupA st.orders pd.orderId with
    | none => rfl
    | some ord =>
      by_cases hs : hm secret (pd.orderId ++ "|" ++ pd.paymentId) =
          pd.signature
      · simp only [if_pos hs]
      · simp only [if_neg hs]

/-- Ledger effect of one chat-message handling. -/
theorem chat_step_ledger (f : Option Payload) (g : Option (List Char))
    (now : Nat) (st : ServerState) (u sid : String) (msg : List Char)
    (w : String) (hq : quotaOk (lookupA st.userStates w)) :
    quotaOk (lookupA (handleChatMessage f g now st u sid
        msg).st.userStates w) ∧
    usageMono (lookupA st.userStates w)
      (lookupA (handleChatMessage f g now st u sid msg).st.userStates w) := by
  by_cases h1 : (trimCL msg).length = 0
  · simp only [handleChatMessage, if_pos h1]
    exact ⟨hq, usageMono_refl _⟩
  by_cases h2 : 1000 < msg.length
  · simp only [handleChatMessage, if_neg h1, if_pos h2]
    exact ⟨hq, usageMono_refl _⟩
  simp only [handleChatMessage, if_neg h1, if_neg h2]
  by_cases h3 : ((classifyUserQuery (trimCL msg)).isGeneralOverview &&
      !((lookupA st.userStates u).getD
          defaultUserState).hasReceivedOverview) = true
  · rw [if_pos h3, finishChat_st]
    have hins :=
      insert_step_ledger st.userStates u
        { (lookupA st.userStates u).getD defaultUserState with
            hasReceivedOverview := true } w hq ?_
    · have hrel :=
        processQuery_usRel f g now
          { st with userStates := (insertA st.userStates u
              { (lookupA st.userStates u).getD defaultUserState with
                  hasReceivedOverview := true }) }
          u sid (trimCL msg) w
      exact ⟨usRel_quota hrel hins.1, usageMono_trans hins.2
        (usRel_mono hrel)⟩
    · intro hw
      subst hw
      cases hlku : lookupA st.userStates u with
      | none => simp [quotaOk, usageMono, defaultUserState]
      | some us0 =>
        rw [hlku] at hq
        simp only [hlku, Option.getD_some]
        exact ⟨fun hp => hq hp, le_refl _, fun hp => hp⟩
  rw [if_neg h3]
  by_cases h4 : (!((lookupA st.userStates u).getD
      defaultUserState).isPremium &&
      decide (10 ≤ ((lookupA st.userStates u).getD
        defaultUserState).freeQuestionsUsed)) = true
  · rw [if_pos h4]
    exact ⟨hq, usageMono_refl _⟩
  rw [if_neg h4]
  by_cases h5 : ((lookupA st.userStates u).getD
      defaultUserState).isPremium = true
  · rw [if_pos h5, finishChat_st]
    have hrel := processQuery_usRel f g now st u sid (trimCL msg) w
    exact ⟨usRel_quota hrel hq, usRel_mono hrel⟩
  · rw [if_neg h5, finishChat_st]
    have hfq : ((lookupA st.userStates u).getD
        defaultUserState).freeQuestionsUsed < 10 := by
      rcases Bool.not_eq_true _ |>.mp h5 with hp
      by_contra hcon
      apply h4
      simp [hp]
      omega
    have hins :=
      insert_step_ledger st.userStates u
        { (lookupA st.userStates u).getD defaultUserState with
            freeQuestionsUsed := ((lookupA st.userStates u).getD
              defaultUserState).freeQuestionsUsed + 1 } w hq ?_
    · have hrel :=
        processQuery_usRel f g now
          { st with userStates := (insertA st.userStates u
              { (lookupA st.userStates u).getD defaultUserState with
                  freeQuestionsUsed := ((lookupA st.userStates u).getD
                    defaultUserState).freeQuestionsUsed + 1 }) }
          u sid (trimCL msg) w
      exact ⟨usRel_quota hrel hins.1, usageMono_trans hins.2
        (usRel_mono hrel)⟩
    · intro hw
      subst hw
      cases hlku : lookupA st.userStates u with
      | none => simp [quotaOk, usageMono, defaultUserState]
      | some us0 =>
        rw [hlku] at hfq
        simp only [Option.getD_some] at hfq ⊢
        exact ⟨fun _ => hfq, Nat.le_succ _, fun hp => hp⟩

/-- Ledger effect of one payment verification via the route. -/
theorem verify_step_ledger (hm : String → String → String) (secret : String)
    (now : Nat) (st : ServerState) (userId : String) (pd : PaymentData)
    (w : String) (hq : quotaOk (lookupA st.userStates w)) :
    quotaOk (lookupA (verifyRoute hm secret now st userId
        pd).1.userStates w) ∧
    usageMono (lookupA st.userStates w)
      (lookupA (verifyRoute hm secret now st userId pd).1.userStates w) := by
  unfold verifyRoute
  cases hvp : verifyPayment hm secret now st pd with
  | mk st1 r =>
    have hust : st1.userStates = st.userStates := by
      have h := verifyPayment_userStates hm secret now st pd
      rw [hvp] at h
      exact h
    cases r with
    | error e =>
      simp only [hust]
      exact ⟨hq, usageMono_refl _⟩
    | ok v =>
      simp only [hust]
      apply insert_step_ledger st.userStates userId _ w hq
      intro hw
      subst hw
      cases hlku : lookupA st.userStates userId with
      | none => simp [hlku, quotaOk, usageMono, defaultUserState]
      | some us0 =>
        simp only [hlku, Option.getD_some]
        exact ⟨by simp [quotaOk], le_refl _, fun _ => rfl⟩

theorem stepOp_ledger (hm : String → String → String) (secret : String)
    (st : ServerState) (op : Op) (w : String)
    (hq : quotaOk (lookupA st.userStates w)) :
    quotaOk (lookupA (stepOp hm secret st op).userStates w) ∧
    usageMono (lookupA st.userStates w)
      (lookupA (stepOp hm secret st op).userStates w) := by
  cases op with
  | chat u sid msg f g now => exact chat_step_ledger f g now st u sid msg w hq
  | verify u now pd => exact verify_step_ledger hm secret now st u pd w hq

/-- C2: across every sequence of message-handling and payment-verification
operations, each user's `freeQuestionsUsed` is monotonically non-decreasing
and never exceeds 10 while `isPremium` is false, and `isPremium` is
monotonic: once true it is never reset to false by these operations. -/
theorem C2_ledger_invariant (hm : String → String → String) (secret : String)
    (st : ServerState) (hb : ∀ w, quotaOk (lookupA st.userStates w))
    (ops : List Op) (u : String) :
    quotaOk (lookupA (runOps hm secret st ops).userStates u) ∧
    usageMono (lookupA st.userStates u)
      (lookupA (runOps hm secret st ops).userStates u) := by
  induction ops generalizing st with
  | nil => exact ⟨hb u, usageMono_refl _⟩
  | cons op t ih =>
    have hstep := fun w => stepOp_ledger hm secret st op w (hb w)
    have hrest := ih (stepOp hm secret st op) (fun w => (hstep w).1)
    exact ⟨hrest.1, usageMono_trans (hstep u).2 hrest.2⟩

def exStC2 : ServerState :=
  { users := ["u1"], userStates := [], sessions := [], astroCache := [],
    orders := [], payments := [] }

def exOpsC2 : List Op :=
  [Op.chat "u1" "s1" ("will i marry".data) (some []) (some ("hi".data)) 0,
   Op.verify "u1" 1 { orderId := "o1", paymentId := "p1",
                      signature := "sig" }]

theorem C2_ledger_invariant_witness :
    (∀ w, quotaOk (lookupA exStC2.userStates w)) ∧
    (quotaOk (lookupA (runOps (fun s m => s ++ m) "sec" exStC2
        exOpsC2).userStates "u1") ∧
      usageMono (lookupA exStC2.userStates "u1")
        (lookupA (runOps (fun s m => s ++ m) "sec" exStC2
          exOpsC2).userStates "u1")) :=
  ⟨fun _ => True.intro,
    C2_ledger_invariant (fun s m => s ++ m) "sec" exStC2
      (fun _ => True.intro) exOpsC2 "u1"⟩

/-! ## Claim C6: cache behavior when the refresh fetch fails -/

def exUser6 : UserState :=
  { freeQuestionsUsed := 1, isPremium := false, totalQuestions := 1,
    hasReceivedOverview := true }

def exSt6 : ServerState :=
  { users := ["u1"], userStates := [("u1", exUser6)], sessions := [],
    astroCache := [], orders := [], payments := [] }

/-- C6 counterexample: a cache lookup with no prior entry whose refresh
fetch fails.  The degraded entry (empty payload, error flag) is served for
the turn, but it is NOT stored: the cache still has no entry for the key
afterwards, and the very next message attempts the fetch again — refuting
the claim that the degraded entry is stored to prevent re-attempts. -/
theorem C6_counterexample :
    (processQuery none (some ("ok".data)) 0 exSt6 "u1" "s1"
        ("career advice".data)).served = some (degradedEntry 0) ∧
    (processQuery none (some ("ok".data)) 0 exSt6 "u1" "s1"
        ("career advice".data)).fetchAttempted = true ∧
    lookupA (processQuery none (some ("ok".data)) 0 exSt6 "u1" "s1"
        ("career advice".data)).st.astroCache
      (cacheKeyOf "u1" (classifyUserQuery ("career advice".data)).apis) =
      none ∧
    (processQuery none (some ("ok".data)) 1
        (processQuery none (some ("ok".data)) 0 exSt6 "u1" "s1"
          ("career advice".data)).st
        "u1" "s1" ("career advice".data)).fetchAttempted = true := by decide

/-- C6 (amended): when the refresh fetch fails, a prior (stale) entry is
served unchanged and the cache is untouched; with no prior entry a
degraded entry (empty payload, error flag set) is synthesized and served
for this turn only — it is NOT stored in the cache, so the key is still
absent and the pipeline re-attempts the fetch on the next message. -/
theorem C6_cache_failure_not_stored (now : Nat)
    (cache : List (String × CacheEntry)) (key : String) :
    (∀ e, lookupA cache key = some e → 3600000 < now - e.timestamp →
      cacheStep none now cache key = (cache, e, true)) ∧
    (lookupA cache key = none →
      cacheStep none now cache key = (cache, degradedEntry now, true) ∧
      lookupA (cacheStep none now cache key).1 key = none) := by
  constructor
  · intro e he hstale
    unfold cacheStep
    rw [he]
    simp [hstale]
  · intro hn
    unfold cacheStep
    rw [hn]
    exact ⟨rfl, hn⟩

def exEntry6 : CacheEntry := { data := [("planets", "x")], timestamp := 0 }

theorem C6_cache_failure_not_stored_witness :
    (lookupA ([] : List (String × CacheEntry)) "k" = none ∧
      lookupA [("k", exEntry6)] "k" = some exEntry6 ∧
      3600000 < 9999999 - exEntry6.timestamp) ∧
    (cacheStep none 9999999 [("k", exEntry6)] "k" =
        ([("k", exEntry6)], exEntry6, true) ∧
      cacheStep none 5 ([] : List (String × CacheEntry)) "k" =
        ([], degradedEntry 5, true) ∧
      lookupA (cacheStep none 5 ([] : List (String × CacheEntry)) "k").1
        "k" = none) :=
  ⟨⟨by decide, by decide, by decide⟩,
    (C6_cache_failure_not_stored 9999999 [("k", exEntry6)] "k").1 exEntry6
      (by decide) (by decide),
    ((C6_cache_failure_not_stored 5 [] "k").2 (by decide)).1,
    ((C6_cache_failure_not_stored 5 [] "k").2 (by decide)).2⟩

/-! ## Claim C7: signature verification round-trip -/

theorem get_congr_list {α : Type} (l l2 : List α) (hq : l = l2) (i : Nat)
    (ha : i < l.length) (hb : i < l2.length) :
    l.get ⟨i, ha⟩ = l2.get ⟨i, hb⟩ := by
  subst hq
  rfl

/-- C7: for a verification request whose orderId is known locally and whose
three fields are present, `verifyPayment` succeeds if and only if the
gateway HMAC (hex) over `orderId|paymentId` keyed by the secret equals the
supplied signature exactly; and any single-character mutation of a valid
signature makes it fail with the signature-mismatch error. -/
theorem C7_signature_verification (hm : String → String → String)
    (secret : String) (now : Nat) (st : ServerState) (oid pid sig : String)
    (ho : oid ≠ "") (hp : pid ≠ "") (hs : sig ≠ "")
    (hord : (lookupA st.orders oid).isSome = true) :
    ((∃ v, (verifyPayment hm secret now st
        { orderId := oid, paymentId := pid, signature := sig }).2 = .ok v)
      ↔ hm secret (oid ++ "|" ++ pid) = sig) ∧
    (hm secret (oid ++ "|" ++ pid) = sig →
      ∀ (i : Nat) (hi : i < sig.data.length) (c : Char),
        c ≠ sig.data.get ⟨i, hi⟩ →
        (verifyPayment hm secret now st
          { orderId := oid, paymentId := pid,
            signature := String.mk (sig.data.set i c) }).2 =
          .error .signatureMismatch) := by
  obtain ⟨ord, hordeq⟩ := Option.isSome_iff_exists.mp hord
  constructor
  · by_cases hsig : hm secret (oid ++ "|" ++ pid) = sig
    · simp [verifyPayment, ho, hp, hs, hordeq, hsig]
    · simp [verifyPayment, ho, hp, hs, hordeq, hsig]
  · intro hv i hi c hc
    have hne2 : String.mk (sig.data.set i c) ≠ "" := by
      intro h
      have hdata : sig.data.set i c = [] := by
        simpa using congrArg String.data h
      have hlen : sig.data.length = 0 := by
        have h0 := congrArg List.length hdata
        rwa [List.length_set] at h0
      omega
    have hner : hm secret (oid ++ "|" ++ pid) ≠
        String.mk (sig.data.set i c) := by
      intro h
      rw [hv] at h
      have hd : sig.data = sig.data.set i c := congrArg String.data h
      have h2 : sig.data.get ⟨i, hi⟩ =
          (sig.data.set i c).get ⟨i, by simpa using hi⟩ :=
        get_congr_list _ _ hd i hi (by simpa using hi)
      simp at h2
      rw [List.get_eq_getElem] at hc
      exact hc h2.symm
    simp [verifyPayment, ho, hp, hne2, hordeq, hner]

def exOrd7 : PayOrder :=
  { userId := "u1", planType := "basic",
    plan := { questions := 5, price := 199, name := "Basic Plan" },
    amount := 19900, currency := "INR", status := "created" }

def exSt7 : ServerState :=
  { users := [], userStates := [], sessions := [], astroCache := [],
    orders := [("o1", exOrd7)], payments := [] }

theorem C7_signature_verification_witness :
    (("o1" : String) ≠ "" ∧ ("p1" : String) ≠ "" ∧
      ("k:o1|p1" : String) ≠ "" ∧
      (lookupA exSt7.orders "o1").isSome = true) ∧
    (((∃ v, (verifyPayment (fun s m => s ++ ":" ++ m) "k" 3 exSt7
        { orderId := "o1", paymentId := "p1",
          signature := "k:o1|p1" }).2 = .ok v)
      ↔ (fun (s m : String) => s ++ ":" ++ m) "k" ("o1" ++ "|" ++ "p1") =
          "k:o1|p1") ∧
    ((fun (s m : String) => s ++ ":" ++ m) "k" ("o1" ++ "|" ++ "p1") =
        "k:o1|p1" →
      ∀ (i : Nat) (hi : i < ("k:o1|p1" : String).data.length) (c : Char),
        c ≠ ("k:o1|p1" : String).data.get ⟨i, hi⟩ →
        (verifyPayment (fun s m => s ++ ":" ++ m) "k" 3 exSt7
          { orderId := "o1", paymentId := "p1",
            signature :=
              String.mk (("k:o1|p1" : String).data.set i c) }).2 =
          .error .signatureMismatch)) :=
  ⟨⟨by decide, by decide, by decide, by decide⟩,
    C7_signature_verification (fun s m => s ++ ":" ++ m) "k" 3 exSt7
      "o1" "p1" "k:o1|p1" (by decide) (by decide) (by decide) (by decide)⟩

/-! ## Claim C9: handlePaymentFailure -/

def exOrd9 : PayOrder :=
  { userId := "u2", planType := "basic",
    plan := { questions := 5, price := 199, name := "Basic Plan" },
    amount := 19900, currency := "INR", status := "created" }

def exSt9 : ServerState :=
  { users := [], userStates := [], sessions := [], astroCache := [],
    orders := [("o9", exOrd9)], payments := [] }

/-- C9 counterexample: `handlePaymentFailure` is NOT failure-proof for
every errorInfo value: when `errorData` is `undefined`/`null` the log line
reads `errorData.description`, throwing a TypeError that the catch block
rethrows — both for a known and for an unknown order id. -/
theorem C9_counterexample :
    (handlePaymentFailure 4 exSt9 "o9" none).2 = .error () ∧
    (handlePaymentFailure 4 exSt9 "missing" none).2 = .error () := by decide

/-- C9 (amended): for every orderId and every non-null errorInfo object,
`handlePaymentFailure` never fails: a known order is marked failed with
the stored error detail, an unknown order is a no-op, and repeated calls
(at the same timestamp) are idempotent.  With a null/undefined errorInfo
the call itself throws (see the counterexample). -/
theorem C9_failure_marking (now : Nat) (st : ServerState) (oid : String)
    (e : ErrInfo) :
    (handlePaymentFailure now st oid (some e)).2 = .ok () ∧
    (∀ o, lookupA st.orders oid = some o →
      lookupA (handlePaymentFailure now st oid (some e)).1.orders oid =
        some { o with status := "failed", errorData := some e,
                      failedAt := some now }) ∧
    (lookupA st.orders oid = none →
      (handlePaymentFailure now st oid (some e)).1 = st) ∧
    (handlePaymentFailure now (handlePaymentFailure now st oid
        (some e)).1 oid (some e) =
      handlePaymentFailure now st oid (some e)) := by
  refine ⟨?_, ?_, ?_, ?_⟩
  · cases hl : lookupA st.orders oid <;> simp [handlePaymentFailure, hl]
  · intro o hl
    simp [handlePaymentFailure, hl, lookupA_insertA]
  · intro hl
    simp [handlePaymentFailure, hl]
  · cases hl : lookupA st.orders oid with
    | none => simp [handlePaymentFailure, hl]
    | some o =>
      simp [handlePaymentFailure, hl, lookupA_insertA, insertA_insertA]

def exErr9 : ErrInfo := { description := some "card declined" }

theorem C9_failure_marking_witness :
    (lookupA exSt9.orders "o9" = some exOrd9 ∧
      lookupA exSt9.orders "missing" = none) ∧
    ((handlePaymentFailure 4 exSt9 "o9" (some exErr9)).2 = .ok () ∧
      lookupA (handlePaymentFailure 4 exSt9 "o9"
          (some exErr9)).1.orders "o9" =
        some { exOrd9 with status := "failed", errorData := some exErr9,
                           failedAt := some 4 } ∧
      (handlePaymentFailure 4 exSt9 "missing" (some exErr9)).1 = exSt9 ∧
      handlePaymentFailure 4 (handlePaymentFailure 4 exSt9 "o9"
          (some exErr9)).1 "o9" (some exErr9) =
        handlePaymentFailure 4 exSt9 "o9" (some exErr9)) :=
  ⟨⟨by decide, by decide⟩,
    (C9_failure_marking 4 exSt9 "o9" exErr9).1,
    (C9_failure_marking 4 exSt9 "o9" exErr9).2.1 exOrd9 (by decide),
    (C9_failure_marking 4 exSt9 "missing" exErr9).2.2.1 (by decide),
    (C9_failure_marking 4 exSt9 "o9" exErr9).2.2.2⟩

/-! ## Claim C8: session retention -/

/-- Number of lines of a context string, as `split('\n')` counts them. -/
def ctxLines (s : List Char) : Nat := (splitNl s).length

theorem splitNl_ne_nil (s : List Char) : splitNl s ≠ [] := by
  cases s with
  | nil => simp [splitNl]
  | cons c rest =>
    by_cases h : c = '\n'
    · simp [splitNl, h]
    · simp only [splitNl, if_neg h]
      cases splitNl rest <;> simp

theorem splitNl_no_nl (a : List Char) (ha : '\n' ∉ a) : splitNl a = [a] := by
  induction a with
  | nil => rfl
  | cons c rest ih =>
    have hc : ¬c = '\n' := fun h => ha (by simp [h])
    have hrest : '\n' ∉ rest := fun h => ha (List.mem_cons_of_mem _ h)
    simp [splitNl, hc, ih hrest]

theorem splitNl_append (a s : List Char) (ha : '\n' ∉ a) :
    splitNl (a ++ '\n' :: s) = a :: splitNl s := by
  induction a with
  | nil => simp [splitNl]
  | cons c rest ih =>
    have hc : ¬c = '\n' := fun h => ha (by simp [h])
    have hrest : '\n' ∉ rest := fun h => ha (List.mem_cons_of_mem _ h)
    simp [splitNl, hc, ih hrest]

theorem mem_splitNl (s : List Char) (x : List Char) (hx : x ∈ splitNl s) :
    '\n' ∉ x := by
  induction s generalizing x with
  | nil =>
    simp [splitNl] at hx
    simp [hx]
  | cons c rest ih =>
    by_cases h : c = '\n'
    · simp [splitNl, h] at hx
      rcases hx with hx | hx
      · simp [hx]
      · exact ih x hx
    · simp only [splitNl, if_neg h] at hx
      cases hsp : splitNl rest with
      | nil => exact absurd hsp (splitNl_ne_nil rest)
      | cons l ls =>
        rw [hsp] at hx
        rcases List.mem_cons.mp hx with hx | hx
        · subst hx
          intro hmem
          rcases List.mem_cons.mp hmem with hh | hh
          · exact h hh.symm
          · exact ih l (hsp ▸ List.mem_cons_self l ls) hh
        · exact ih x (hsp ▸ List.mem_cons_of_mem l hx)

theorem splitNl_joinNl (xs : List (List Char)) (hne : xs ≠ [])
    (hnl : ∀ x ∈ xs, '\n' ∉ x) : splitNl (joinNl xs) = xs := by
  induction xs with
  | nil => exact absurd rfl hne
  | cons a t ih =>
    cases t with
    | nil => simp [joinNl, splitNl_no_nl a (hnl a (by simp))]
    | cons b t2 =>
      rw [joinNl, splitNl_append a _ (hnl a (by simp))]
      rw [ih (by simp) (fun x hx => hnl x (by simp [hx]))]

theorem length_lastN {α : Type} (n : Nat) (l : List α) :
    (lastN n l).length = min n l.length := by
  simp [lastN]

theorem lastN_of_length_le {α : Type} (n : Nat) (l : List α)
    (h : l.length ≤ n) : lastN n l = l := by
  unfold lastN
  rw [List.take_of_length_le (by simpa using h), List.reverse_reverse]

theorem map_lastN {α β : Type} (f : α → β) (n : Nat) (l : List α) :
    (lastN n l).map f = lastN n (l.map f) := by
  simp [lastN, List.map_take]

theorem mem_lastN {α : Type} {x : α} (n : Nat) (l : List α)
    (h : x ∈ lastN n l) : x ∈ l := by
  simp only [lastN, List.mem_reverse] at h
  have := List.mem_of_mem_take h
  simpa using this

theorem lastN_ne_nil {α : Type} (n : Nat) (l : List α) (hn : 0 < n)
    (hl : l ≠ []) : lastN n l ≠ [] := by
  simp only [lastN, ne_eq, List.reverse_eq_nil_iff, List.take_eq_nil_iff,
    List.reverse_eq_nil_iff]
  push_neg
  exact ⟨by omega, hl⟩

theorem lastN_append_one {α : Type} (n : Nat) (l : List α) (a : α)
    (hn : 0 < n) :
    lastN n (lastN n l ++ [a]) = lastN n (l ++ [a]) := by
  obtain ⟨m, rfl⟩ : ∃ m, n = m + 1 := ⟨n - 1, by omega⟩
  simp [lastN, List.reverse_append, List.take_succ_cons, List.take_take]

/-- The (user text, bot text) projection of a stored message entry. -/
def projEx (m : MessageEntry) : (List Char) × (List Char) := (m.user, m.bot)

/-- On a successful generation, `processQuery` answers with the response
and stores the appended (and possibly trimmed) session. -/
theorem processQuery_ok_parts (f : Option Payload) (resp : List Char)
    (now : Nat) (st : ServerState) (u sid : String) (msg : List Char)
    (hu : u ∈ st.users) :
    (processQuery f (some resp) now st u sid msg).res = .ok resp ∧
    (processQuery f (some resp) now st u sid msg).st.users = st.users ∧
    lookupA (processQuery f (some resp) now st u sid msg).st.sessions sid =
      some (appendExchange
        { (lookupA st.sessions sid).getD (freshSession now) with
            queryCount := ((lookupA st.sessions sid).getD
              (freshSession now)).queryCount + 1 }
        (mkEntry msg resp now (classifyUserQuery msg))) := by
  unfold processQuery
  simp only [if_pos hu]
  cases hus : lookupA st.userStates u <;>
    cases hsess : lookupA st.sessions sid <;>
      simp [hus, hsess, lookupA_insertA]

/-- Effect of appending one exchange on the retention invariants. -/
theorem appendExchange_spec (sess : Session) (e : MessageEntry)
    (es : List ((List Char) × (List Char)))
    (hproj : sess.messages.map projEx = lastN 10 es) :
    (appendExchange sess e).messages.map projEx =
      lastN 10 (es ++ [projEx e]) ∧
    (10 ≤ es.length → ctxLines (appendExchange sess e).context ≤ 20) := by
  have hlen : sess.messages.length = min 10 es.length := by
    have h := congrArg List.length hproj
    simpa [length_lastN] using h
  unfold appendExchange
  by_cases htrim : 10 < (sess.messages ++ [e]).length
  · have hes : 10 ≤ es.length := by
      simp [List.length_append] at htrim
      omega
    rw [if_pos htrim]
    constructor
    · simp only [map_lastN, List.map_append, hproj]
      have : (List.map projEx [e]) = [projEx e] := by simp
      rw [this, lastN_append_one 10 es (projEx e) (by omega)]
    · intro _
      have h1 : lastN 20 (splitNl (sess.context ++
          exchangeText e.user e.bot)) ≠ [] :=
        lastN_ne_nil _ _ (by omega) (splitNl_ne_nil _)
      have h2 : ∀ x ∈ lastN 20 (splitNl (sess.context ++
          exchangeText e.user e.bot)), '\n' ∉ x :=
        fun x hx => mem_splitNl _ x (mem_lastN _ _ hx)
      unfold ctxLines
      rw [splitNl_joinNl _ h1 h2, length_lastN]
      omega
  · have hes : es.length < 10 := by
      simp [List.length_append] at htrim
      omega
    rw [if_neg htrim]
    constructor
    · simp only [List.map_append, hproj]
      have hsmall : lastN 10 es = es := lastN_of_length_le _ _ (by omega)
      rw [hsmall]
      have : (List.map projEx [e]) = [projEx e] := by simp
      rw [this]
      exact (lastN_of_length_le _ _ (by simp; omega)).symm
    · intro h
      omega

/-- The retention invariant for a session after `done` exchanges. -/
def sessInv (st : ServerState) (sid : String)
    (done : List ((List Char) × (List Char))) : Prop :=
  (done = [] ∧ lookupA st.sessions sid = none) ∨
  (∃ sess, lookupA st.sessions sid = some sess ∧
    sess.messages.map projEx = lastN 10 done ∧
    (11 ≤ done.length → ctxLines sess.context ≤ 20))

/-- One successful exchange preserves the retention invariant. -/
theorem exchange_step (st : ServerState) (u sid : String) (now : Nat)
    (m r : List Char) (done : List ((List Char) × (List Char)))
    (hu : u ∈ st.users) (hinv : sessInv st sid done) :
    u ∈ (processQuery none (some r) now st u sid m).st.users ∧
    sessInv (processQuery none (some r) now st u sid m).st sid
      (done ++ [(m, r)]) := by
  obtain ⟨hres, husers, hsess⟩ := processQuery_ok_parts none r now st u sid m hu
  refine ⟨by rw [husers]; exact hu, Or.inr ?_⟩
  rcases hinv with ⟨hd, hnone⟩ | ⟨sess, hlks, hproj, hctx⟩
  · subst hd
    rw [hnone] at hsess
    have happ := appendExchange_spec
      { freshSession now with queryCount := 1 }
      (mkEntry m r now (classifyUserQuery m)) []
      (by simp [freshSession, lastN])
    refine ⟨_, hsess, ?_, ?_⟩
    · have : projEx (mkEntry m r now (classifyUserQuery m)) = (m, r) := rfl
      rw [← this]
      simpa [freshSession] using happ.1
    · intro h
      simp at h
  · rw [hlks] at hsess
    have happ := appendExchange_spec
      { sess with queryCount := sess.queryCount + 1 }
      (mkEntry m r now (classifyUserQuery m)) done (by simpa using hproj)
    refine ⟨_, hsess, ?_, ?_⟩
    · have : projEx (mkEntry m r now (classifyUserQuery m)) = (m, r) := rfl
      rw [← this]
      exact happ.1
    · intro h
      apply happ.2
      simp at h
      omega

/-- Folding a list of successful exchanges through `processQuery`. -/
def runExchanges (st : ServerState) (u sid : String) (now : Nat)
    (xs : List ((List Char) × (List Char))) : ServerState :=
  xs.foldl (fun s p => (processQuery none (some p.2) now s u sid p.1).st) st

theorem runExchanges_sessInv (u sid : String) (now : Nat)
    (xs done : List ((List Char) × (List Char))) (st : ServerState)
    (hu : u ∈ st.users) (hinv : sessInv st sid done) :
    sessInv (runExchanges st u sid now xs) sid (done ++ xs) := by
  induction xs generalizing st done with
  | nil => simpa [runExchanges] using hinv
  | cons x t ih =>
    have hstep := exchange_step st u sid now x.1 x.2 done hu hinv
    have hx : done ++ x :: t = (done ++ [x]) ++ t := by simp
    rw [hx]
    have hrun : runExchanges st u sid now (x :: t) =
        runExchanges (processQuery none (some x.2) now st u sid x.1).st
          u sid now t := by
      simp [runExchanges]
    rw [hrun]
    exact ih (done ++ [x]) (processQuery none (some x.2) now st u sid x.1).st
      hstep.1 hstep.2

/-- C8 (amended): starting from a fresh session, after any non-empty run
of successful exchanges the stored message list is exactly the most recent
10 exchanges (all of them while fewer than 10 have happened), evicted in
FIFO order; and from the 11th exchange on — once the trim is active — the
stored context is bounded to at most 20 lines.  (Before the 11th exchange
the context can exceed 20 lines when texts contain newlines: see the
counterexample.) -/
theorem C8_session_retention (st : ServerState) (u sid : String) (now : Nat)
    (xs : List ((List Char) × (List Char)))
    (hu : u ∈ st.users) (hsess : lookupA st.sessions sid = none)
    (hne : xs ≠ []) :
    ∃ sess, lookupA (runExchanges st u sid now xs).sessions sid =
        some sess ∧
      sess.messages.map projEx = lastN 10 xs ∧
      (11 ≤ xs.length → ctxLines sess.context ≤ 20) := by
  have h := runExchanges_sessInv u sid now xs [] st hu (Or.inl ⟨rfl, hsess⟩)
  rcases h with ⟨hd, -⟩ | ⟨sess, h1, h2, h3⟩
  · simp at hd
    exact absurd hd hne
  · exact ⟨sess, h1, by simpa using h2, by simpa using h3⟩

def exUserC8 : UserState :=
  { freeQuestionsUsed := 1, isPremium := false, totalQuestions := 1,
    hasReceivedOverview := true }

def exStC8 : ServerState :=
  { users := ["u1"], userStates := [("u1", exUserC8)], sessions := [],
    astroCache := [], orders := [], payments := [] }

def exMsgC8 : List Char := ('a' :: List.replicate 25 '\n') ++ ['b']

/-- C8 counterexample: one successful exchange whose user text contains
newlines leaves the stored context at 28 lines — more than the claimed
20-line bound, since the trim only runs once the message list exceeds
10 entries. -/
theorem C8_counterexample :
    (processQuery none (some ("ok".data)) 0 exStC8 "u1" "s1"
        exMsgC8).res = .ok ("ok".data) ∧
    (lookupA (runExchanges exStC8 "u1" "s1" 0
        [(exMsgC8, ("ok".data))]).sessions "s1").map
      (fun sess => ctxLines sess.context) = some 28 ∧
    (lookupA (runExchanges exStC8 "u1" "s1" 0
        [(exMsgC8, ("ok".data))]).sessions "s1").map
      (fun sess => decide (ctxLines sess.context ≤ 20)) = some false := by
  decide

theorem C8_session_retention_witness :
    ("u1" ∈ exStC8.users ∧ lookupA exStC8.sessions "s1" = none ∧
      (List.replicate 15 (("hello".data : List Char), ("ok".data : List Char))
        : List ((List Char) × (List Char))) ≠ []) ∧
    (∃ sess, lookupA (runExchanges exStC8 "u1" "s1" 0
        (List.replicate 15
          (("hello".data : List Char), ("ok".data : List Char)))).sessions
        "s1" = some sess ∧
      sess.messages.map projEx =
        lastN 10 (List.replicate 15
          (("hello".data : List Char), ("ok".data : List Char))) ∧
      (11 ≤ (List.replicate 15
          (("hello".data : List Char), ("ok".data : List Char))).length →
        ctxLines sess.context ≤ 20)) :=
  ⟨⟨by decide, by decide, by decide⟩,
    C8_session_retention exStC8 "u1" "s1" 0
      (List.replicate 15 (("hello".data), ("ok".data)))
      (by decide) (by decide) (by decide)⟩

/-! ## Claim C5: classifier scoring and selection -/

/-- Spec-side weight of one keyword: 2 for a whole-word match, 1 for a
mere substring hit, 0 otherwise. -/
def kwWeight (ql : List Char) (kw : List Char) : Nat :=
  if containsSub kw ql then (if wholeWordMatch kw ql then 2 else 1) else 0

/-- Spec-side score of an intent: total keyword weight divided by the
keyword-list length. -/
def specScore (ql : List Char) (kws : List (List Char)) : ℚ :=
  mkRat ((kws.map (kwWeight ql)).sum : Int) kws.length

theorem scoreKeywords_aux (ql : List Char) (kws : List (List Char))
    (acc : KwScore) :
    (kws.foldl
      (fun acc kw =>
        if containsSub kw ql then
          { hits := acc.hits + 1,
            total := acc.total + (if wholeWordMatch kw ql then 2 else 1) }
        else acc)
      acc).total = acc.total + (kws.map (kwWeight ql)).sum ∧
    (kws.foldl
      (fun acc kw =>
        if containsSub kw ql then
          { hits := acc.hits + 1,
            total := acc.total + (if wholeWordMatch kw ql then 2 else 1) }
        else acc)
      acc).hits = acc.hits + kws.countP (fun kw => containsSub kw ql) := by
  induction kws generalizing acc with
  | nil => simp
  | cons kw t ih =>
    simp only [List.foldl_cons, List.map_cons, List.sum_cons,
      List.countP_cons]
    obtain ⟨ht, hh⟩ :=
      ih (if containsSub kw ql then
            ⟨acc.hits + 1,
              acc.total + (if wholeWordMatch kw ql then 2 else 1)⟩
          else acc)
    constructor
    · rw [ht]
      by_cases hc : containsSub kw ql = true
      · simp [hc, kwWeight]
        omega
      · simp only [Bool.not_eq_true] at hc
        simp [hc, kwWeight]
    · rw [hh]
      by_cases hc : containsSub kw ql = true
      · simp [hc]
        omega
      · simp only [Bool.not_eq_true] at hc
        simp [hc]

theorem intentConfidence_eq_spec (ql : List Char) (kws : List (List Char)) :
    intentConfidence ql kws = specScore ql kws := by
  unfold intentConfidence specScore scoreKeywords
  obtain ⟨ht, hh⟩ := scoreKeywords_aux ql kws ⟨0, 0⟩
  by_cases hpos : 0 < (kws.foldl
      (fun acc kw =>
        if containsSub kw ql then
          { hits := acc.hits + 1,
            total := acc.total + (if wholeWordMatch kw ql then 2 else 1) }
        else acc)
      (⟨0, 0⟩ : KwScore)).hits
  · rw [if_pos hpos, ht]
    simp
  · rw [if_neg hpos]
    rw [hh] at hpos
    simp only [Nat.zero_add, Nat.pos_iff_ne_zero, ne_eq, not_not] at hpos
    have hall := List.countP_eq_zero.mp hpos
    have hzero : (kws.map (kwWeight ql)).sum = 0 := by
      apply List.sum_eq_zero_iff.mpr
      intro x hx
      obtain ⟨kw, hkw, rfl⟩ := List.mem_map.mp hx
      have := hall kw hkw
      simp [kwWeight, this]
    rw [hzero]
    simp

theorem specScore_nonneg (ql : List Char) (kws : List (List Char)) :
    0 ≤ specScore ql kws := by
  unfold specScore
  rw [Rat.mkRat_eq_div]
  positivity

theorem specScore_eq_zero_iff (ql : List Char) (kws : List (List Char))
    (hk : kws ≠ []) :
    specScore ql kws = 0 ↔ ∀ kw ∈ kws, containsSub kw ql = false := by
  unfold specScore
  rw [Rat.mkRat_eq_div, div_eq_zero_iff]
  have hlen : ((kws.length : Int) : ℚ) ≠ 0 := by
    simp
    exact hk
  constructor
  · intro h
    rcases h with h | h
    · have hsum : (kws.map (kwWeight ql)).sum = 0 := by exact_mod_cast h
      intro kw hkw
      have hw : kwWeight ql kw = 0 :=
        List.sum_eq_zero_iff.mp hsum _ (List.mem_map_of_mem _ hkw)
      by_contra hcon
      simp only [Bool.not_eq_false] at hcon
      simp [kwWeight, hcon] at hw
      by_cases hww : wholeWordMatch kw ql = true
      · rw [if_pos hww] at hw
        omega
      · rw [if_neg hww] at hw
        omega
    · exact absurd h hlen
  · intro h
    left
    have hsum : (kws.map (kwWeight ql)).sum = 0 := by
      apply List.sum_eq_zero_iff.mpr
      intro x hx
      obtain ⟨kw, hkw, rfl⟩ := List.mem_map.mp hx
      simp [kwWeight, h kw hkw]
    rw [hsum]
    simp

theorem specScore_pos (ql : List Char) (kws : List (List Char))
    (hk : kws ≠ []) (kw : List Char) (hkw : kw ∈ kws)
    (hc : containsSub kw ql = true) : 0 < specScore ql kws := by
  refine lt_of_le_of_ne (specScore_nonneg ql kws) (Ne.symm ?_)
  intro h0
  have := (specScore_eq_zero_iff ql kws hk).mp h0 kw hkw
  rw [hc] at this
  cases this

/-- Characterization of the strict-improvement selection fold: either no
entry beats the initial accumulator (which is then returned), or the
result is the first entry attaining the running maximum — strictly above
everything before it, and at least everything after it. -/
theorem selectFold_spec (l : List (String × ℚ)) (b : String × ℚ) :
    (l.foldl selStep b = b ∧ ∀ p ∈ l, p.2 ≤ b.2) ∨
    (∃ i, ∃ hi : i < l.length, l.foldl selStep b = l.get ⟨i, hi⟩ ∧
      b.2 < (l.get ⟨i, hi⟩).2 ∧
      (∀ j, ∀ hj : j < l.length, j < i →
        (l.get ⟨j, hj⟩).2 < (l.get ⟨i, hi⟩).2) ∧
      (∀ j, ∀ hj : j < l.length, i < j →
        (l.get ⟨j, hj⟩).2 ≤ (l.get ⟨i, hi⟩).2)) := by
  induction l generalizing b with
  | nil => exact Or.inl ⟨rfl, by simp⟩
  | cons x t ih =>
    rw [List.foldl_cons]
    by_cases hbx : b.2 < x.2
    · have hstep : selStep b x = x := by simp [selStep, hbx]
      rw [hstep]
      rcases ih x with ⟨heq, hall⟩ | ⟨i, hi, heq, hgt, hbef, haft⟩
      · refine Or.inr ⟨0, by simp, by simpa using heq, by simpa using hbx,
          ?_, ?_⟩
        · intro j hj hj0
          omega
        · intro j hj h0j
          cases j with
          | zero => omega
          | succ k =>
            have hk : k < t.length := by simpa using hj
            have hmem : t.get ⟨k, hk⟩ ∈ t := List.get_mem t k hk
            simpa using hall _ hmem
      · refine Or.inr ⟨i + 1, by simpa using hi, by simpa using heq,
          ?_, ?_, ?_⟩
        · have : x.2 < (t.get ⟨i, hi⟩).2 := hgt
          calc b.2 < x.2 := hbx
            _ < _ := by simpa using this
        · intro j hj hji
          cases j with
          | zero =>
            simpa using hgt
          | succ k =>
            have hk : k < t.length := by simpa using hj
            simpa using hbef k hk (by omega)
        · intro j hj hij
          cases j with
          | zero => omega
          | succ k =>
            have hk : k < t.length := by simpa using hj
            simpa using haft k hk (by omega)
    · have hstep : selStep b x = b := by simp [selStep, hbx]
      rw [hstep]
      rcases ih b with ⟨heq, hall⟩ | ⟨i, hi, heq, hgt, hbef, haft⟩
      · refine Or.inl ⟨heq, ?_⟩
        intro p hp
        rcases List.mem_cons.mp hp with hp | hp
        · subst hp
          exact le_of_not_lt hbx
        · exact hall p hp
      · refine Or.inr ⟨i + 1, by simpa using hi, by simpa using heq,
          by simpa using hgt, ?_, ?_⟩
        · intro j hj hji
          cases j with
          | zero =>
            calc ((x :: t).get ⟨0, hj⟩).2 ≤ b.2 := by
                  simpa using le_of_not_lt hbx
              _ < _ := by simpa using hgt
          | succ k =>
            have hk : k < t.length := by simpa using hj
            simpa using hbef k hk (by omega)
        · intro j hj hij
          cases j with
          | zero => omega
          | succ k =>
            have hk : k < t.length := by simpa using hj
            simpa using haft k hk (by omega)

/-- C5: for every text not matching the general-overview special case,
`classifyUserQuery` scores each intent as the keyword-weight sum (2 for a
whole-word match, 1 for a substring hit) divided by the keyword-list
length, returns the intent with the strictly highest score (ties keep the
first intent in table order), and returns intent `general` with
confidence 0 when no keyword of any intent matches. -/
theorem C5_scoring_and_selection (q : List Char)
    (hs : specialOverview (toLowerCL q) = false) :
    ((∀ p ∈ intentTable, ∀ kw ∈ p.2,
        containsSub kw (toLowerCL q) = false) →
      (classifyUserQuery q).intent = "general" ∧
      (classifyUserQuery q).confidence = 0) ∧
    ((∃ p ∈ intentTable, ∃ kw ∈ p.2,
        containsSub kw (toLowerCL q) = true) →
      ∃ i, ∃ hi : i < intentTable.length,
        (classifyUserQuery q).intent = (intentTable.get ⟨i, hi⟩).1 ∧
        (classifyUserQuery q).confidence =
          specScore (toLowerCL q) (intentTable.get ⟨i, hi⟩).2 ∧
        0 < (classifyUserQuery q).confidence ∧
        (∀ j, ∀ hj : j < intentTable.length, j < i →
          specScore (toLowerCL q) (intentTable.get ⟨j, hj⟩).2 <
            (classifyUserQuery q).confidence) ∧
        (∀ j, ∀ hj : j < intentTable.length, i < j →
          specScore (toLowerCL q) (intentTable.get ⟨j, hj⟩).2 ≤
            (classifyUserQuery q).confidence)) := by
  have hcls : classifyUserQuery q =
      { intent := (selectBest (intentTable.map
          (fun p => (p.1, intentConfidence (toLowerCL q) p.2)))).1,
        confidence := (selectBest (intentTable.map
          (fun p => (p.1, intentConfidence (toLowerCL q) p.2)))).2,
        apis := standardApis,
        isComplex := decide (10 < tokenCount q),
        isGeneralOverview := false } := by
    simp [classifyUserQuery, hs]
  set scored := intentTable.map
    (fun p => (p.1, intentConfidence (toLowerCL q) p.2)) with hscored
  have hlen : scored.length = intentTable.length := by
    rw [hscored, List.length_map]
  have hget : ∀ (i : Nat) (hi : i < intentTable.length)
      (hi2 : i < scored.length),
      scored.get ⟨i, hi2⟩ = ((intentTable.get ⟨i, hi⟩).1,
        specScore (toLowerCL q) (intentTable.get ⟨i, hi⟩).2) := by
    intro i hi hi2
    simp [hscored, List.get_map, intentConfidence_eq_spec]
  have hnonempty : ∀ p ∈ intentTable, p.2 ≠ [] := by decide
  rcases selectFold_spec scored ("general", 0) with
    ⟨heq, hall⟩ | ⟨i, hi, heq, hgt, hbef, haft⟩
  · have hsel : selectBest scored = ("general", 0) := heq
    constructor
    · intro _
      rw [hcls]
      rw [hsel]
      exact ⟨rfl, rfl⟩
    · rintro ⟨p, hp, kw, hkw, hc⟩
      exfalso
      have hpos := specScore_pos (toLowerCL q) p.2 (hnonempty p hp) kw hkw hc
      have hmem : (p.1, intentConfidence (toLowerCL q) p.2) ∈ scored := by
        rw [hscored]
        exact List.mem_map_of_mem _ hp
      have hle := hall _ hmem
      have hle2 : specScore (toLowerCL q) p.2 ≤ 0 := by
        simpa [intentConfidence_eq_spec] using hle
      exact absurd hpos (not_lt.mpr hle2)
  · have hi' : i < intentTable.length := by rw [← hlen]; exact hi
    have hchosen : scored.get ⟨i, hi⟩ = ((intentTable.get ⟨i, hi'⟩).1,
        specScore (toLowerCL q) (intentTable.get ⟨i, hi'⟩).2) :=
      hget i hi' hi
    have hselval : selectBest scored = scored.get ⟨i, hi⟩ := heq
    constructor
    · intro hnone
      exfalso
      have h0 : specScore (toLowerCL q) (intentTable.get ⟨i, hi'⟩).2 = 0 := by
        apply (specScore_eq_zero_iff _ _
          (hnonempty _ (List.get_mem _ _ _))).mpr
        intro kw hkw
        exact hnone _ (List.get_mem _ _ _) kw hkw
      rw [hchosen] at hgt
      rw [h0] at hgt
      exact absurd hgt (by simp)
    · rintro -
      refine ⟨i, hi', ?_, ?_, ?_, ?_, ?_⟩
      · rw [hcls]
        show (selectBest scored).1 = _
        rw [hselval, hchosen]
      · rw [hcls]
        show (selectBest scored).2 = _
        rw [hselval, hchosen]
      · rw [hcls]
        show (0 : ℚ) < (selectBest scored).2
        rw [hselval, hchosen]
        have hgt2 := hgt
        rw [hchosen] at hgt2
        simpa using hgt2
      · intro j hj hji
        have hj2 : j < scored.length := by rw [hlen]; exact hj
        have hb := hbef j hj2 hji
        rw [hchosen, hget j hj hj2] at hb
        rw [hcls]
        show _ < (selectBest scored).2
        rw [hselval, hchosen]
        simpa using hb
      · intro j hj hij
        have hj2 : j < scored.length := by rw [hlen]; exact hj
        have ha := haft j hj2 hij
        rw [hchosen, hget j hj hj2] at ha
        rw [hcls]
        show _ ≤ (selectBest scored).2
        rw [hselval, hchosen]
        simpa using ha

theorem C5_scoring_and_selection_witness :
    specialOverview (toLowerCL ("will i marry".data)) = false ∧
    (((∀ p ∈ intentTable, ∀ kw ∈ p.2,
        containsSub kw (toLowerCL ("will i marry".data)) = false) →
      (classifyUserQuery ("will i marry".data)).intent = "general" ∧
      (classifyUserQuery ("will i marry".data)).confidence = 0) ∧
    ((∃ p ∈ intentTable, ∃ kw ∈ p.2,
        containsSub kw (toLowerCL ("will i marry".data)) = true) →
      ∃ i, ∃ hi : i < intentTable.length,
        (classifyUserQuery ("will i marry".data)).intent =
          (intentTable.get ⟨i, hi⟩).1 ∧
        (classifyUserQuery ("will i marry".data)).confidence =
          specScore (toLowerCL ("will i marry".data))
            (intentTable.get ⟨i, hi⟩).2 ∧
        0 < (classifyUserQuery ("will i marry".data)).confidence ∧
        (∀ j, ∀ hj : j < intentTable.length, j < i →
          specScore (toLowerCL ("will i marry".data))
              (intentTable.get ⟨j, hj⟩).2 <
            (classifyUserQuery ("will i marry".data)).confidence) ∧
        (∀ j, ∀ hj : j < intentTable.length, i < j →
          specScore (toLowerCL ("will i marry".data))
              (intentTable.get ⟨j, hj⟩).2 ≤
            (classifyUserQuery ("will i marry".data)).confidence))) :=
  ⟨by decide, C5_scoring_and_selection ("will i marry".data) (by decide)⟩
